import Mathlib

/-!
Shallow embedding of the Product CRUD service (Express + Prisma) centred on
its pagination subsystem.  The store backing Prisma is modelled as a
`List Product`; Prisma queries become pure functions over that list.

Sources embedded:
 * `src/repositories/product.repository.ts` — `ProductRepository`
   (`findById`, `findAllOffset`, `findAllCursor`, `update`, `delete`) and the
   zod `querySchema`;
 * `src/services/product.service.ts` — `ProductService`
   (`getProductsOffset`, `getProductsCursor`, `updateProduct`,
   `deleteProduct`);
 * the product controller — the `Number(query.limit) || 10` /
   `Number(query.page) || 1` coercions in the list handlers.

Modelling conventions: identifiers (uuid strings) and timestamps are `Nat`;
prices are `Int` (no claim depends on decimal arithmetic).  Database row
ordering `orderBy: createdAt desc` is a stable sort on the stored list —
the source orders by `createdAt` alone, with no tiebreaker.
-/

namespace ProductApi

/-- Product row, after the Prisma schema (README `model Product`): `id` is the
primary key and cursor token, `createdAt` the sort key, `updatedAt` is
refreshed on every mutation (`@updatedAt`). -/
structure Product where
  id : Nat
  name : String
  description : Option String
  price : Int
  stock : Nat
  createdAt : Nat
  updatedAt : Nat
deriving DecidableEq, Repr

/-- Ordering relation of `orderBy: \x7b createdAt: "desc" \x7d`: `a` comes no
later than `b` when `a.createdAt ≥ b.createdAt`.  No tiebreaker. -/
def byCreatedAtDesc (a b : Product) : Prop :=
  b.createdAt ≤ a.createdAt

instance : DecidableRel byCreatedAtDesc :=
  fun a b => Nat.decLe b.createdAt a.createdAt

instance : IsTotal Product byCreatedAtDesc :=
  ⟨fun a b => Nat.le_total b.createdAt a.createdAt⟩

instance : IsTrans Product byCreatedAtDesc :=
  ⟨fun _ _ _ hab hbc => Nat.le_trans hbc hab⟩

/-- Database result ordering for `orderBy: \x7b createdAt: "desc" \x7d`:
a stable sort of the stored rows by descending `createdAt`. -/
def sortByCreatedAtDesc (s : List Product) : List Product :=
  List.insertionSort byCreatedAtDesc s

/-- Error outcomes observable from the service layer.  `notFound` is the
`Error` the service throws when `findById` misses; `storageError` is a
failure propagated unchanged from the storage client (e.g. Prisma failing to
resolve a `cursor` row); `invalidCursor` is the distinct typed error the
spec taxonomy asks for — no code path constructs it. -/
inductive ServiceError where
  | notFound (id : Nat)
  | storageError
  | invalidCursor (id : Nat)
deriving DecidableEq, Repr

/-- Model of `ProductRepository.findById`: `prisma.product.findUnique` on the primary
key; `null` (here `none`) when the row is absent. -/
def repoFindById (s : List Product) (id : Nat) : Option Product :=
  s.find? (fun p => p.id == id)

/-- Result shape of `ProductRepository.findAllOffset`. -/
structure OffsetFetch where
  data : List Product
  total : Nat
deriving DecidableEq, Repr

/-- Model of `ProductRepository.findAllOffset`: one transaction running the windowed
`findMany (skip, take, orderBy createdAt desc)` and the independent
`count()` against the same snapshot `s`. -/
def findAllOffset (s : List Product) (skip take : Nat) : OffsetFetch :=
  ⟨((sortByCreatedAtDesc s).drop skip).take take, s.length⟩

/-- Position of the row with id `c` in an ordered result list, as the Prisma
`cursor: \x7b id \x7d` resolution finds it. -/
def idxOfId (c : Nat) : List Product → Option Nat
  | [] => none
  | p :: ps => if p.id = c then some 0 else (idxOfId c ps).map (· + 1)

/-- Model of `ProductRepository.findAllCursor`: `findMany` with `take: take + 1` and
`orderBy createdAt desc`; when a cursor is given, position at the row whose
`id` equals the cursor in that ordering, `skip: 1` past it, and take the
window from there.  A cursor id that resolves to no row makes the storage
client fail; that failure propagates as-is (`storageError`). -/
def findAllCursor (s : List Product) (take : Nat) (cursor : Option Nat) :
    Except ServiceError (List Product) :=
  let sorted := sortByCreatedAtDesc s
  match cursor with
  | none => Except.ok (sorted.take (take + 1))
  | some c =>
    match idxOfId c sorted with
    | none => Except.error ServiceError.storageError
    | some i => Except.ok ((sorted.drop (i + 1)).take (take + 1))

/-- Body of the zod `updateProductSchema` / `UpdateProductDto`: the four
optional updatable fields. -/
structure UpdateDto where
  name : Option String
  description : Option String
  price : Option Int
  stock : Option Nat
deriving DecidableEq, Repr

/-- Effect of `prisma.product.update` on the matched row: each field present
in the dto replaces the stored value, absent fields are kept; `@updatedAt`
refreshes `updatedAt` to the mutation time `now`; `id` and `createdAt` carry
over. -/
def applyUpdate (p : Product) (d : UpdateDto) (now : Nat) : Product :=
  { id := p.id
    name := d.name.getD p.name
    description := match d.description with
      | some v => some v
      | none => p.description
    price := d.price.getD p.price
    stock := d.stock.getD p.stock
    createdAt := p.createdAt
    updatedAt := now }

/-- Model of `ProductRepository.update`: rewrite the row whose `id` matches, leave
every other row untouched. -/
def repoUpdate (s : List Product) (id : Nat) (d : UpdateDto) (now : Nat) :
    List Product :=
  s.map (fun p => if p.id = id then applyUpdate p d now else p)

/-- Model of `ProductRepository.delete`: remove the row whose `id` matches. -/
def repoDelete (s : List Product) (id : Nat) : List Product :=
  s.filter (fun p => p.id != id)

/-- Cursor-page metadata returned by `ProductService.getProductsCursor`. -/
structure PageMeta where
  hasNextPage : Bool
  nextCursor : Option Nat
deriving DecidableEq, Repr

/-- Result of `ProductService.getProductsCursor`. -/
structure CursorPage where
  data : List Product
  meta : PageMeta
deriving DecidableEq, Repr

/-- Model of `ProductService.getProductsCursor`: over-fetch by one, then
`hasNextPage = items.length > limit`,
`data = hasNextPage ? items.slice(0, -1) : items`,
`nextCursor = hasNextPage ? data[data.length - 1]?.id : undefined`. -/
def getProductsCursor (s : List Product) (limit : Nat) (cursor : Option Nat) :
    Except ServiceError CursorPage :=
  match findAllCursor s limit cursor with
  | Except.error e => Except.error e
  | Except.ok items =>
    let hasNextPage : Bool := limit < items.length
    let data := if hasNextPage then items.dropLast else items
    let nextCursor := if hasNextPage then data.getLast?.map Product.id else none
    Except.ok ⟨data, ⟨hasNextPage, nextCursor⟩⟩

/-- Offset-page metadata returned by `ProductService.getProductsOffset`. -/
structure OffsetMeta where
  total : Nat
  page : Nat
  limit : Nat
  totalPages : Nat
deriving DecidableEq, Repr

/-- Result of `ProductService.getProductsOffset`. -/
structure OffsetPage where
  data : List Product
  meta : OffsetMeta
deriving DecidableEq, Repr

/-- Value of `Math.ceil(a / b)` for natural `a` and positive natural `b`. -/
def ceilDiv (a b : Nat) : Nat :=
  (a + b - 1) / b

/-- Model of `ProductService.getProductsOffset`: `skip = (page - 1) * limit`, windowed
fetch plus count, `totalPages = Math.ceil(total / limit)`. -/
def getProductsOffset (s : List Product) (page limit : Nat) : OffsetPage :=
  let skip := (page - 1) * limit
  let f := findAllOffset s skip limit
  ⟨f.data, ⟨f.total, page, limit, ceilDiv f.total limit⟩⟩

/-- Model of `ProductService.updateProduct`: look the row up first; when absent throw
the not-found `Error` without touching storage, otherwise run the update and
return the updated row.  The pair carries the store after the call. -/
def updateProduct (s : List Product) (id : Nat) (d : UpdateDto) (now : Nat) :
    Except ServiceError Product × List Product :=
  match repoFindById s id with
  | none => (Except.error (ServiceError.notFound id), s)
  | some p => (Except.ok (applyUpdate p d now), repoUpdate s id d now)

/-- Model of `ProductService.deleteProduct`: look the row up first; when absent throw
the not-found `Error` without touching storage, otherwise delete and return
the deleted row. -/
def deleteProduct (s : List Product) (id : Nat) :
    Except ServiceError Product × List Product :=
  match repoFindById s id with
  | none => (Except.error (ServiceError.notFound id), s)
  | some p => (Except.ok p, repoDelete s id)

/-- Raw list-request query string, before validation: `page` and `limit`
arrive as optional decimal numeral strings, the cursor as an optional id
token. -/
structure RawQuery where
  page : Option String
  limit : Option String
  cursor : Option Nat
deriving DecidableEq, Repr

/-- zod `querySchema`: `page`, `limit`, `cursor` are all optional and
`z.string().transform(Number)` never rejects, so parsing succeeds on every
query object and returns it unchanged. -/
def querySchemaParse (q : RawQuery) : Except ServiceError RawQuery :=
  Except.ok q

/-- A JavaScript number that is either NaN or an integer (the claims only
involve integer numerals). -/
inductive JSNumber where
  | nan
  | int (i : Int)
deriving DecidableEq, Repr

/-- Value of a string of decimal digits, `none` when a non-digit occurs.
An empty digit string yields 0, matching `Number("")`. -/
def digitsToNat (cs : List Char) : Option Nat :=
  cs.foldl
    (fun acc c =>
      match acc with
      | none => none
      | some n =>
        if c.toNat < 48 ∨ 57 < c.toNat then none
        else some (10 * n + (c.toNat - 48)))
    (some 0)

/-- Value of `Number(x)` on an optional decimal-integer numeral string:
`Number(undefined)` and non-numeral strings give NaN. -/
def jsNumber (s : Option String) : JSNumber :=
  match s with
  | none => JSNumber.nan
  | some str =>
    match str.data with
    | '-' :: rest =>
      if rest.isEmpty then JSNumber.nan
      else
        match digitsToNat rest with
        | some n => JSNumber.int (-(n : Int))
        | none => JSNumber.nan
    | cs =>
      match digitsToNat cs with
      | some n => JSNumber.int (n : Int)
      | none => JSNumber.nan

/-- JavaScript `x || d`: the default `d` when `x` is falsy (NaN or 0). -/
def jsOrDefault (x : JSNumber) (d : Int) : Int :=
  match x with
  | JSNumber.nan => d
  | JSNumber.int i => if i = 0 then d else i

/-- Controller coercion `Number(query.limit) || 10`. -/
def parsedLimitOf (q : RawQuery) : Int :=
  jsOrDefault (jsNumber q.limit) 10

/-- Controller coercion `Number(query.page) || 1`. -/
def parsedPageOf (q : RawQuery) : Int :=
  jsOrDefault (jsNumber q.page) 1

/-- Controller `getProductsCursor` handler: validate then call the service
with the coerced limit and the raw cursor. -/
def getProductsCursorHandler (s : List Product) (q : RawQuery) :
    Except ServiceError CursorPage :=
  match querySchemaParse q with
  | Except.error e => Except.error e
  | Except.ok q2 => getProductsCursor s (parsedLimitOf q2).toNat q2.cursor

/-- Controller `getProductsOffset` handler: validate then call the service
with the coerced page and limit. -/
def getProductsOffsetHandler (s : List Product) (q : RawQuery) :
    Except ServiceError OffsetPage :=
  match querySchemaParse q with
  | Except.error e => Except.error e
  | Except.ok q2 =>
    Except.ok (getProductsOffset s (parsedPageOf q2).toNat (parsedLimitOf q2).toNat)

/-- Client-side traversal of the cursor API: call
`getProductsCursor`, concatenate `data`, follow `nextCursor` while
`hasNextPage`; `fuel` bounds the number of calls.  `none` means the
traversal failed or got stuck (service error, missing `nextCursor`, or fuel
exhausted). -/
def cursorTraverse (s : List Product) (limit : Nat) :
    Option Nat → Nat → Option (List Product)
  | _, 0 => none
  | cursor, fuel + 1 =>
    match getProductsCursor s limit cursor with
    | Except.error _ => none
    | Except.ok page =>
      if page.meta.hasNextPage then
        match page.meta.nextCursor with
        | none => none
        | some c =>
          (cursorTraverse s limit (some c) fuel).map (fun rest => page.data ++ rest)
      else some page.data

/-- The cursor the traversal holds when `p` rows have been consumed from the
ordered result `t`: absent at the start, otherwise the id of the last
consumed row. -/
def cursorAt (t : List Product) (p : Nat) : Option Nat :=
  match p with
  | 0 => none
  | q + 1 => (t[q]?).map Product.id

/-! Helper lemmas about the ordering and cursor resolution. -/

theorem sort_perm (s : List Product) : (sortByCreatedAtDesc s).Perm s :=
  List.perm_insertionSort byCreatedAtDesc s

theorem sort_length (s : List Product) :
    (sortByCreatedAtDesc s).length = s.length :=
  (sort_perm s).length_eq

theorem sort_sorted (s : List Product) :
    List.Sorted byCreatedAtDesc (sortByCreatedAtDesc s) :=
  List.sorted_insertionSort byCreatedAtDesc s

theorem sort_map_id_perm (s : List Product) :
    ((sortByCreatedAtDesc s).map Product.id).Perm (s.map Product.id) :=
  (sort_perm s).map Product.id

theorem sort_map_id_nodup (s : List Product)
    (h : (s.map Product.id).Nodup) :
    ((sortByCreatedAtDesc s).map Product.id).Nodup :=
  ((sort_map_id_perm s).nodup_iff).mpr h

theorem idxOfId_eq_none (c : Nat) (t : List Product)
    (h : c ∉ t.map Product.id) : idxOfId c t = none := by
  induction t with
  | nil => rfl
  | cons p ps ih =>
    simp only [List.map_cons, List.mem_cons, not_or] at h
    rw [idxOfId, if_neg (fun he => h.1 (Eq.symm he)), ih h.2]
    rfl

theorem idxOfId_some (c : Nat) (t : List Product) (i : Nat)
    (h : idxOfId c t = some i) : ∃ p, t[i]? = some p ∧ p.id = c := by
  induction t generalizing i with
  | nil => simp [idxOfId] at h
  | cons p ps ih =>
    by_cases hc : p.id = c
    · rw [idxOfId, if_pos hc] at h
      cases h
      exact ⟨p, by simp, hc⟩
    · rw [idxOfId, if_neg hc] at h
      cases hps : idxOfId c ps with
      | none => rw [hps] at h; simp at h
      | some j =>
        rw [hps] at h
        simp only [Option.map] at h
        cases h
        obtain ⟨q, hq, hqc⟩ := ih j hps
        exact ⟨q, by simpa using hq, hqc⟩

theorem idxOfId_of_mem (c : Nat) (t : List Product)
    (h : c ∈ t.map Product.id) : ∃ i, idxOfId c t = some i := by
  induction t with
  | nil => simp at h
  | cons p ps ih =>
    by_cases hc : p.id = c
    · exact ⟨0, by simp [idxOfId, hc]⟩
    · simp only [List.map_cons, List.mem_cons] at h
      obtain ⟨i, hi⟩ := ih (h.resolve_left (fun he => hc he.symm))
      exact ⟨i + 1, by simp [idxOfId, hc, hi]⟩

theorem idxOfId_getElem (t : List Product) (j : Nat)
    (hn : (t.map Product.id).Nodup) (hj : j < t.length) :
    idxOfId (t[j].id) t = some j := by
  induction t generalizing j with
  | nil => simp at hj
  | cons p ps ih =>
    simp only [List.map_cons, List.nodup_cons] at hn
    cases j with
    | zero => simp [idxOfId]
    | succ j =>
      have hj2 : j < ps.length := by simpa using hj
      have hne : p.id ≠ ps[j].id := by
        intro he
        exact hn.1 (he ▸ List.mem_map_of_mem Product.id (ps.getElem_mem hj2))
      have : (p :: ps)[j + 1] = ps[j] := rfl
      rw [this, idxOfId, if_neg hne, ih j hn.2 hj2]
      rfl

theorem sorted_window (t : List Product) (h : List.Sorted byCreatedAtDesc t)
    (a b : Nat) : List.Sorted byCreatedAtDesc ((t.drop a).take b) :=
  List.Pairwise.sublist ((List.take_sublist b (t.drop a)).trans (List.drop_sublist a t)) h

theorem dropLast_take_succ (ys : List Product) (l : Nat) (h : l + 1 ≤ ys.length) :
    (ys.take (l + 1)).dropLast = ys.take l := by
  rw [List.dropLast_eq_take, List.length_take, min_eq_left h, Nat.add_sub_cancel,
    List.take_take, min_eq_left (Nat.le_succ l)]

theorem getLast?_take (ys : List Product) (l : Nat) (hl : 0 < l)
    (h : l ≤ ys.length) : (ys.take l).getLast? = ys[l - 1]? := by
  rw [List.getLast?_eq_getElem?, List.length_take, min_eq_left h, List.getElem?_take]
  split
  · rfl
  · rename_i hcon
    exact absurd (Nat.sub_lt hl Nat.one_pos) hcon

/-- Concrete three-row store used by the witnesses: rows with strictly
decreasing `createdAt`, so the stored order is already the pagination
order. -/
def demoStore : List Product :=
  [⟨1, "p1", none, 10, 1, 30, 0⟩,
   ⟨2, "p2", none, 10, 1, 20, 0⟩,
   ⟨3, "p3", none, 10, 1, 10, 0⟩]

/-- C10: on a non-empty store, the service cursor page for `limit = 0` and no
cursor has `hasNextPage = true`, an empty row list and no `nextCursor`: the
page claims a next page but provides no token to reach it. -/
theorem cursor_page_limit_zero_stuck (s : List Product) (h : s ≠ []) :
    getProductsCursor s 0 none = Except.ok ⟨[], ⟨true, none⟩⟩ := by
  have hts : sortByCreatedAtDesc s ≠ [] := by
    intro he
    apply h
    have hlen := sort_length s
    rw [he] at hlen
    exact List.length_eq_zero.mp hlen.symm
  obtain ⟨hd, tl, ht⟩ := List.exists_cons_of_ne_nil hts
  simp [getProductsCursor, findAllCursor, ht]

/-- Closed witness for `cursor_page_limit_zero_stuck` at the demo store. -/
theorem cursor_page_limit_zero_stuck_witness :
    getProductsCursor demoStore 0 none = Except.ok ⟨[], ⟨true, none⟩⟩ :=
  cursor_page_limit_zero_stuck demoStore (by decide)

/-- C6: for an id that resolves to no product, `updateProduct` and
`deleteProduct` signal the not-found error from the existence check that runs
before the mutation, and the store is unchanged. -/
theorem mutation_missing_id_not_found (s : List Product) (id : Nat)
    (d : UpdateDto) (now : Nat) (h : ∀ p ∈ s, p.id ≠ id) :
    updateProduct s id d now = (Except.error (ServiceError.notFound id), s) ∧
      deleteProduct s id = (Except.error (ServiceError.notFound id), s) := by
  have hf : repoFindById s id = none := by
    rw [repoFindById, List.find?_eq_none]
    intro p hp
    simpa using h p hp
  constructor
  · simp [updateProduct, hf]
  · simp [deleteProduct, hf]

/-- Closed witness for `mutation_missing_id_not_found`: id 99 is absent from
the demo store. -/
theorem mutation_missing_id_not_found_witness :
    updateProduct demoStore 99 ⟨none, none, none, none⟩ 5 =
        (Except.error (ServiceError.notFound 99), demoStore) ∧
      deleteProduct demoStore 99 = (Except.error (ServiceError.notFound 99), demoStore) :=
  mutation_missing_id_not_found demoStore 99 ⟨none, none, none, none⟩ 5 (by decide)

theorem getProductsCursor_ok (s : List Product) (l : Nat) (c : Option Nat)
    (items : List Product) (h : findAllCursor s l c = Except.ok items) :
    getProductsCursor s l c =
      Except.ok ⟨if decide (l < items.length) then items.dropLast else items,
        ⟨decide (l < items.length),
         if decide (l < items.length) then
           (if decide (l < items.length) then items.dropLast else items).getLast?.map Product.id
         else none⟩⟩ := by
  unfold getProductsCursor
  rw [h]

/-- C1: for a positive limit and an optional cursor that resolves, the cursor
fetch takes at most `limit + 1` rows in `createdAt`-descending order,
beginning strictly after the cursor row (which is never among the fetched
rows); when the fetch yields `limit + 1` rows the page has
`hasNextPage = true`, its rows are the first `limit` of them and
`nextCursor` is the id of the last returned row; when it yields `limit` or
fewer rows the page has `hasNextPage = false`, all fetched rows and no
`nextCursor`. -/
theorem cursor_page_contract (s : List Product) (l : Nat) (c : Option Nat)
    (hl : 0 < l) (hids : (s.map Product.id).Nodup)
    (hc : ∀ cid, c = some cid → cid ∈ s.map Product.id) :
    ∃ items page,
      findAllCursor s l c = Except.ok items ∧
      getProductsCursor s l c = Except.ok page ∧
      items.length ≤ l + 1 ∧
      List.Sorted byCreatedAtDesc items ∧
      (∀ cid, c = some cid → ∀ p ∈ items, p.id ≠ cid) ∧
      (items.length = l + 1 →
        page.meta.hasNextPage = true ∧
        page.data = items.take l ∧
        ∃ lastRow, page.data.getLast? = some lastRow ∧
          page.meta.nextCursor = some lastRow.id) ∧
      (items.length ≤ l →
        page.meta.hasNextPage = false ∧ page.data = items ∧
          page.meta.nextCursor = none) := by
  have hsorted : List.Sorted byCreatedAtDesc (sortByCreatedAtDesc s) := sort_sorted s
  have hnodup : ((sortByCreatedAtDesc s).map Product.id).Nodup := sort_map_id_nodup s hids
  set t := sortByCreatedAtDesc s with htdef
  obtain ⟨a, hfetch, hfresh⟩ :
      ∃ a, findAllCursor s l c = Except.ok ((t.drop a).take (l + 1)) ∧
        (∀ cid, c = some cid → ∀ p ∈ (t.drop a).take (l + 1), p.id ≠ cid) := by
    cases c with
    | none =>
      refine ⟨0, ?_, ?_⟩
      · simp only [findAllCursor]
        rw [← htdef, List.drop_zero]
      · intro cid hcid
        cases hcid
    | some cid =>
      have hmem : cid ∈ t.map Product.id :=
        ((sort_map_id_perm s).mem_iff).mpr (hc cid rfl)
      obtain ⟨i, hi⟩ := idxOfId_of_mem cid t hmem
      refine ⟨i + 1, ?_, ?_⟩
      · simp only [findAllCursor]
        rw [← htdef, hi]
      · intro cid2 hcid2 p hp hpe
        cases hcid2
        obtain ⟨q, hq, hqid⟩ := idxOfId_some cid t i hi
        have hqtake : q ∈ t.take (i + 1) := by
          have hqt : (t.take (i + 1))[i]? = some q := by
            rw [List.getElem?_take, if_pos (Nat.lt_succ_self i)]
            exact hq
          obtain ⟨h1, h2⟩ := List.getElem?_eq_some.mp hqt
          exact h2 ▸ List.getElem_mem h1
        have hptail : p ∈ t.drop (i + 1) :=
          List.Sublist.mem hp (List.take_sublist _ _)
        have happ : ((t.take (i + 1)).map Product.id ++
            (t.drop (i + 1)).map Product.id).Nodup := by
          rw [← List.map_append, List.take_append_drop]
          exact hnodup
        have hdisj := (List.nodup_append.mp happ).2.2
        exact hdisj (hqid ▸ List.mem_map_of_mem Product.id hqtake)
          (hpe ▸ List.mem_map_of_mem Product.id hptail)
  set items := (t.drop a).take (l + 1) with hitemsdef
  have hlen_le : items.length ≤ l + 1 := by
    rw [hitemsdef, List.length_take]
    exact min_le_left _ _
  have hsortitems : List.Sorted byCreatedAtDesc items := sorted_window t hsorted a (l + 1)
  by_cases hcase : l < items.length
  · have hlen : items.length = l + 1 := le_antisymm hlen_le hcase
    have hdata : items.dropLast = items.take l := by
      rw [List.dropLast_eq_take, hlen, Nat.add_sub_cancel]
    have hdlen : (items.take l).length = l := by
      rw [List.length_take, min_eq_left (by omega)]
    have hne : items.take l ≠ [] := by
      intro he
      rw [he] at hdlen
      simp at hdlen
      omega
    obtain ⟨lastRow, hlast⟩ := Option.isSome_iff_exists.mp (List.getLast?_isSome.mpr hne)
    refine ⟨items, ⟨items.take l, ⟨true, some lastRow.id⟩⟩, hfetch, ?_, hlen_le,
      hsortitems, hfresh, ?_, ?_⟩
    · rw [getProductsCursor_ok s l c items hfetch, decide_eq_true hcase]
      simp [hdata, hlast]
    · intro _
      exact ⟨rfl, rfl, lastRow, hlast, rfl⟩
    · intro hcon
      omega
  · have hle : items.length ≤ l := Nat.le_of_not_lt hcase
    refine ⟨items, ⟨items, ⟨false, none⟩⟩, hfetch, ?_, hlen_le, hsortitems, hfresh, ?_, ?_⟩
    · rw [getProductsCursor_ok s l c items hfetch, decide_eq_false hcase]
      simp
    · intro hcon
      omega
    · intro _
      exact ⟨rfl, rfl, rfl⟩

/-- Closed witness for `cursor_page_contract`: demo store, limit 2, cursor on
row id 2. -/
theorem cursor_page_contract_witness :
    ∃ items page,
      findAllCursor demoStore 2 (some 2) = Except.ok items ∧
      getProductsCursor demoStore 2 (some 2) = Except.ok page ∧
      items.length ≤ 2 + 1 ∧
      List.Sorted byCreatedAtDesc items ∧
      (∀ cid, (some 2 : Option Nat) = some cid → ∀ p ∈ items, p.id ≠ cid) ∧
      (items.length = 2 + 1 →
        page.meta.hasNextPage = true ∧
        page.data = items.take 2 ∧
        ∃ lastRow, page.data.getLast? = some lastRow ∧
          page.meta.nextCursor = some lastRow.id) ∧
      (items.length ≤ 2 →
        page.meta.hasNextPage = false ∧ page.data = items ∧
          page.meta.nextCursor = none) :=
  cursor_page_contract demoStore 2 (some 2) (by decide) (by decide)
    (fun cid h => by cases h; decide)

/-- C3: for `page ≥ 1` and `limit ≥ 1`, the offset page is the window of
`limit` rows of the `createdAt`-descending ordering starting at
`skip = (page - 1) * limit`, with at most `limit` rows, the independent
total row count, and `totalPages = Math.ceil(total / limit)` (characterised
as the least multiple bound). -/
theorem offset_page_contract (s : List Product) (page limit : Nat)
    (_hp : 1 ≤ page) (hl : 1 ≤ limit) :
    (getProductsOffset s page limit).data =
        ((sortByCreatedAtDesc s).drop ((page - 1) * limit)).take limit ∧
      (getProductsOffset s page limit).data.length ≤ limit ∧
      List.Sorted byCreatedAtDesc (getProductsOffset s page limit).data ∧
      (getProductsOffset s page limit).meta.total = s.length ∧
      (getProductsOffset s page limit).meta.totalPages = ceilDiv s.length limit ∧
      s.length ≤ ceilDiv s.length limit * limit ∧
      ceilDiv s.length limit * limit < s.length + limit := by
  refine ⟨rfl, ?_, ?_, rfl, rfl, ?_, ?_⟩
  · show (((sortByCreatedAtDesc s).drop ((page - 1) * limit)).take limit).length ≤ limit
    rw [List.length_take]
    exact min_le_left _ _
  · exact sorted_window (sortByCreatedAtDesc s) (sort_sorted s) _ _
  · by_contra hcon
    push_neg at hcon
    have h1 : ceilDiv s.length limit * limit + limit ≤ s.length + limit - 1 := by
      omega
    have h2 : ceilDiv s.length limit + 1 ≤ (s.length + limit - 1) / limit := by
      refine (Nat.le_div_iff_mul_le hl).mpr ?_
      rw [Nat.succ_mul]
      exact h1
    have h3 : (s.length + limit - 1) / limit = ceilDiv s.length limit := rfl
    omega
  · have h1 : ceilDiv s.length limit * limit ≤ s.length + limit - 1 :=
      Nat.div_mul_le_self _ _
    omega

/-- Closed witness for `offset_page_contract`: demo store, page 2, limit 2. -/
theorem offset_page_contract_witness :
    (getProductsOffset demoStore 2 2).data =
        ((sortByCreatedAtDesc demoStore).drop ((2 - 1) * 2)).take 2 ∧
      (getProductsOffset demoStore 2 2).data.length ≤ 2 ∧
      List.Sorted byCreatedAtDesc (getProductsOffset demoStore 2 2).data ∧
      (getProductsOffset demoStore 2 2).meta.total = demoStore.length ∧
      (getProductsOffset demoStore 2 2).meta.totalPages = ceilDiv demoStore.length 2 ∧
      demoStore.length ≤ ceilDiv demoStore.length 2 * 2 ∧
      ceilDiv demoStore.length 2 * 2 < demoStore.length + 2 :=
  offset_page_contract demoStore 2 2 (by decide) (by decide)

theorem cursorAt_pos (t : List Product) (m : Nat) (hm : 0 < m) :
    cursorAt t m = (t[m - 1]?).map Product.id := by
  cases m with
  | zero => omega
  | succ q => rfl

theorem cursorTraverse_aux (s : List Product) (l : Nat) (hl : 0 < l)
    (hids : (s.map Product.id).Nodup) :
    ∀ fuel p, 0 < fuel → p ≤ (sortByCreatedAtDesc s).length →
      (sortByCreatedAtDesc s).length - p ≤ fuel * l →
      cursorTraverse s l (cursorAt (sortByCreatedAtDesc s) p) fuel =
        some ((sortByCreatedAtDesc s).drop p) := by
  have hnodup := sort_map_id_nodup s hids
  set t := sortByCreatedAtDesc s with htdef
  intro fuel
  induction fuel with
  | zero =>
    intro p hpos
    exact absurd hpos (lt_irrefl 0)
  | succ k ih =>
    intro p hpos hple hbound
    have hfetch : findAllCursor s l (cursorAt t p) =
        Except.ok ((t.drop p).take (l + 1)) := by
      cases p with
      | zero =>
        simp only [cursorAt, findAllCursor]
        rw [← htdef, List.drop_zero]
      | succ q =>
        have hq : q < t.length := by omega
        have hgq : t[q]? = some t[q] := List.getElem?_eq_getElem hq
        have hcur : cursorAt t (q + 1) = some (t[q]).id := by
          simp only [cursorAt, hgq, Option.map]
        rw [hcur]
        simp only [findAllCursor]
        rw [← htdef, idxOfId_getElem t q hnodup hq]
    by_cases hbig : l + 1 ≤ t.length - p
    · have hlen : ((t.drop p).take (l + 1)).length = l + 1 := by
        rw [List.length_take, List.length_drop]
        omega
      have hdata : ((t.drop p).take (l + 1)).dropLast = (t.drop p).take l :=
        dropLast_take_succ (t.drop p) l (by rw [List.length_drop]; omega)
      have hlast1 : ((t.drop p).take l).getLast? = (t.drop p)[l - 1]? :=
        getLast?_take (t.drop p) l hl (by rw [List.length_drop]; omega)
      have hlast2 : (t.drop p)[l - 1]? = t[p + (l - 1)]? := List.getElem?_drop t p (l - 1)
      have hidx : p + (l - 1) < t.length := by omega
      have hlast3 : t[p + (l - 1)]? = some t[p + (l - 1)] := List.getElem?_eq_getElem hidx
      have hpage : getProductsCursor s l (cursorAt t p) =
          Except.ok ⟨(t.drop p).take l, ⟨true, some (t[p + (l - 1)]).id⟩⟩ := by
        rw [getProductsCursor_ok s l (cursorAt t p) ((t.drop p).take (l + 1)) hfetch,
          hlen, decide_eq_true (Nat.lt_succ_self l)]
        simp only [eq_self_iff_true, if_true]
        rw [hdata, hlast1, hlast2, hlast3]
        rfl
      have hc2 : cursorAt t (p + l) = some (t[p + (l - 1)]).id := by
        rw [cursorAt_pos t (p + l) (by omega)]
        have he : p + l - 1 = p + (l - 1) := by omega
        rw [he, hlast3]
        rfl
      have hmul : (k + 1) * l = k * l + l := Nat.succ_mul k l
      have hkpos : 0 < k := by
        rcases Nat.eq_zero_or_pos k with hk0 | hk
        · subst hk0
          rw [Nat.one_mul] at hbound
          omega
        · exact hk
      have ihk := ih (p + l) hkpos (by omega) (by omega)
      simp only [cursorTraverse, hpage]
      simp only [if_true]
      rw [← hc2, ihk]
      have hdd : List.drop (p + l) t = List.drop l (List.drop p t) :=
        (List.drop_drop l p t).symm
      simp only [Option.map]
      rw [hdd, List.take_append_drop]
    · have hsmall : t.length - p ≤ l := by omega
      have hitems_all : (t.drop p).take (l + 1) = t.drop p :=
        List.take_of_length_le (by rw [List.length_drop]; omega)
      rw [hitems_all] at hfetch
      have hnb : ¬ l < (t.drop p).length := by
        rw [List.length_drop]
        omega
      have hpage : getProductsCursor s l (cursorAt t p) =
          Except.ok ⟨t.drop p, ⟨false, none⟩⟩ := by
        rw [getProductsCursor_ok s l (cursorAt t p) (t.drop p) hfetch,
          decide_eq_false hnb]
        simp
      simp only [cursorTraverse, hpage]
      simp

/-- C2: with no writes during traversal, starting the cursor walk with no
cursor and following each `nextCursor` until `hasNextPage = false`
concatenates to the full `createdAt`-descending ordering of the store, which
contains every stored row exactly once (a permutation of the store) and is
exactly what offset pagination returns on page 1 with any limit at least the
row count. -/
theorem cursor_traversal_matches_offset (s : List Product) (l L : Nat)
    (hl : 0 < l) (hids : (s.map Product.id).Nodup) (hL : s.length ≤ L) :
    cursorTraverse s l none (s.length + 1) = some (sortByCreatedAtDesc s) ∧
      (getProductsOffset s 1 L).data = sortByCreatedAtDesc s ∧
      (sortByCreatedAtDesc s).Perm s := by
  refine ⟨?_, ?_, sort_perm s⟩
  · have hb : (sortByCreatedAtDesc s).length - 0 ≤ (s.length + 1) * l := by
      have h1 : s.length + 1 ≤ (s.length + 1) * l := Nat.le_mul_of_pos_right _ hl
      rw [sort_length]
      omega
    have haux := cursorTraverse_aux s l hl hids (s.length + 1) 0 (Nat.succ_pos _)
      (Nat.zero_le _) hb
    simpa [cursorAt] using haux
  · show ((sortByCreatedAtDesc s).drop ((1 - 1) * L)).take L = sortByCreatedAtDesc s
    rw [Nat.sub_self, Nat.zero_mul, List.drop_zero]
    exact List.take_of_length_le (by rw [sort_length]; exact hL)

/-- Closed witness for `cursor_traversal_matches_offset`: demo store,
cursor limit 2, offset limit 5. -/
theorem cursor_traversal_matches_offset_witness :
    cursorTraverse demoStore 2 none (demoStore.length + 1) =
        some (sortByCreatedAtDesc demoStore) ∧
      (getProductsOffset demoStore 1 5).data = sortByCreatedAtDesc demoStore ∧
      (sortByCreatedAtDesc demoStore).Perm demoStore :=
  cursor_traversal_matches_offset demoStore 2 5 (by decide) (by decide) (by decide)

/-- Two rows sharing a `createdAt` (5), stored with ids in decreasing
order. -/
def tieRowHighId : Product := ⟨2, "a2", none, 1, 0, 5, 0⟩

/-- Companion row with the same `createdAt` and the smaller id. -/
def tieRowLowId : Product := ⟨1, "a1", none, 1, 0, 5, 0⟩

/-- C4: the repository orders by `createdAt` alone; on a store holding two
rows with equal `createdAt` whose ids decrease, both pagers return the rows
in stored order, so ties are not broken by `id` and the pagination ordering
is not total over the row data. -/
theorem ordering_has_no_id_tiebreak :
    (getProductsOffset [tieRowHighId, tieRowLowId] 1 2).data =
        [tieRowHighId, tieRowLowId] ∧
      findAllCursor [tieRowHighId, tieRowLowId] 2 none =
        Except.ok [tieRowHighId, tieRowLowId] ∧
      tieRowHighId.createdAt = tieRowLowId.createdAt ∧
      tieRowLowId.id < tieRowHighId.id :=
  ⟨rfl, rfl, rfl, by decide⟩

/-- C5 counterexample: a cursor id (99) matching no stored row makes the
service surface the generic failure of the storage layer, not a distinct
invalid-cursor error. -/
theorem cursor_deleted_row_generic_failure :
    getProductsCursor demoStore 2 (some 99) = Except.error ServiceError.storageError ∧
      getProductsCursor demoStore 2 (some 99) ≠
        Except.error (ServiceError.invalidCursor 99) := by
  refine ⟨rfl, fun h => ?_⟩
  have h2 : (Except.error ServiceError.storageError : Except ServiceError CursorPage) =
      Except.error (ServiceError.invalidCursor 99) := h
  exact ServiceError.noConfusion (Except.error.inj h2)

/-- C5 amended: a cursor id matching no stored row makes `getProductsCursor`
propagate the generic cursor-resolution failure of the storage client. -/
theorem cursor_unresolved_propagates_storage_failure (s : List Product) (l : Nat)
    (cid : Nat) (h : cid ∉ s.map Product.id) :
    getProductsCursor s l (some cid) = Except.error ServiceError.storageError := by
  have hmem : cid ∉ (sortByCreatedAtDesc s).map Product.id := by
    intro hmem2
    exact h (((sort_map_id_perm s).mem_iff).mp hmem2)
  have hfetch : findAllCursor s l (some cid) = Except.error ServiceError.storageError := by
    simp only [findAllCursor]
    rw [idxOfId_eq_none cid (sortByCreatedAtDesc s) hmem]
  unfold getProductsCursor
  rw [hfetch]

/-- Closed witness for `cursor_unresolved_propagates_storage_failure`: id 97
is not in the demo store. -/
theorem cursor_unresolved_propagates_storage_failure_witness :
    getProductsCursor demoStore 3 (some 97) = Except.error ServiceError.storageError :=
  cursor_unresolved_propagates_storage_failure demoStore 3 97 (by decide)

/-- C7: the only lookup primitive in the code, `ProductRepository.findById`,
returns the row for a present id and a bare `null` (`none`) for an absent
one; nothing on this path produces a `NotFound` signal, and the service
layer defines no `getProductById` for the controller to call. -/
theorem findById_returns_null_not_notFound :
    repoFindById demoStore 1 = some ⟨1, "p1", none, 10, 1, 30, 0⟩ ∧
      repoFindById demoStore 99 = none :=
  ⟨rfl, rfl⟩

/-- Row used by the update-frame counterexample and witness. -/
def stockProduct : Product := ⟨7, "gadget", none, 10, 1, 3, 4⟩

/-- The update dto carrying none of the four updatable fields. -/
def emptyDto : UpdateDto := ⟨none, none, none, none⟩

/-- C8 counterexample: an update request carrying none of name, description,
price, stock still rewrites the stored `updatedAt` (4 becomes 9), so
the update does not change only those four fields. -/
theorem update_refreshes_updatedAt :
    updateProduct [stockProduct] 7 emptyDto 9 =
        (Except.ok ⟨7, "gadget", none, 10, 1, 3, 9⟩,
          [⟨7, "gadget", none, 10, 1, 3, 9⟩]) ∧
      (9 : Nat) ≠ stockProduct.updatedAt :=
  ⟨rfl, by decide⟩

/-- C8 amended: an update on an existing row changes name, description,
price and stock exactly as the dto directs, refreshes `updatedAt` to the
mutation time, never modifies `id` or `createdAt`, and leaves every row with
a different id untouched. -/
theorem update_frame (s : List Product) (id : Nat) (d : UpdateDto) (now : Nat)
    (p : Product) (hp : repoFindById s id = some p) :
    updateProduct s id d now =
        (Except.ok (applyUpdate p d now), repoUpdate s id d now) ∧
      (applyUpdate p d now).id = p.id ∧
      (applyUpdate p d now).createdAt = p.createdAt ∧
      (applyUpdate p d now).updatedAt = now ∧
      (d.name = none → (applyUpdate p d now).name = p.name) ∧
      (d.description = none → (applyUpdate p d now).description = p.description) ∧
      (d.price = none → (applyUpdate p d now).price = p.price) ∧
      (d.stock = none → (applyUpdate p d now).stock = p.stock) ∧
      (∀ v, d.name = some v → (applyUpdate p d now).name = v) ∧
      (∀ v, d.description = some v → (applyUpdate p d now).description = some v) ∧
      (∀ v, d.price = some v → (applyUpdate p d now).price = v) ∧
      (∀ v, d.stock = some v → (applyUpdate p d now).stock = v) ∧
      (∀ r ∈ s, r.id ≠ id → r ∈ repoUpdate s id d now) := by
  refine ⟨?_, rfl, rfl, rfl, ?_, ?_, ?_, ?_, ?_, ?_, ?_, ?_, ?_⟩
  · unfold updateProduct
    rw [hp]
  · intro h
    simp [applyUpdate, h]
  · intro h
    simp [applyUpdate, h]
  · intro h
    simp [applyUpdate, h]
  · intro h
    simp [applyUpdate, h]
  · intro v h
    simp [applyUpdate, h]
  · intro v h
    simp [applyUpdate, h]
  · intro v h
    simp [applyUpdate, h]
  · intro v h
    simp [applyUpdate, h]
  · intro r hr hne
    have hmm := List.mem_map_of_mem
      (fun q => if q.id = id then applyUpdate q d now else q) hr
    have hfr : (fun q => if q.id = id then applyUpdate q d now else q) r = r :=
      if_neg hne
    rw [hfr] at hmm
    exact hmm

/-- Closed witness for `update_frame`: renaming the demo row while leaving
the other fields absent. -/
theorem update_frame_witness :
    updateProduct [stockProduct] 7 ⟨some "widget", none, none, none⟩ 9 =
        (Except.ok (applyUpdate stockProduct ⟨some "widget", none, none, none⟩ 9),
          repoUpdate [stockProduct] 7 ⟨some "widget", none, none, none⟩ 9) ∧
      (applyUpdate stockProduct ⟨some "widget", none, none, none⟩ 9).id =
        stockProduct.id ∧
      (applyUpdate stockProduct ⟨some "widget", none, none, none⟩ 9).createdAt =
        stockProduct.createdAt ∧
      (applyUpdate stockProduct ⟨some "widget", none, none, none⟩ 9).updatedAt = 9 ∧
      ((⟨some "widget", none, none, none⟩ : UpdateDto).name = none →
        (applyUpdate stockProduct ⟨some "widget", none, none, none⟩ 9).name =
          stockProduct.name) ∧
      ((⟨some "widget", none, none, none⟩ : UpdateDto).description = none →
        (applyUpdate stockProduct ⟨some "widget", none, none, none⟩ 9).description =
          stockProduct.description) ∧
      ((⟨some "widget", none, none, none⟩ : UpdateDto).price = none →
        (applyUpdate stockProduct ⟨some "widget", none, none, none⟩ 9).price =
          stockProduct.price) ∧
      ((⟨some "widget", none, none, none⟩ : UpdateDto).stock = none →
        (applyUpdate stockProduct ⟨some "widget", none, none, none⟩ 9).stock =
          stockProduct.stock) ∧
      (∀ v, (⟨some "widget", none, none, none⟩ : UpdateDto).name = some v →
        (applyUpdate stockProduct ⟨some "widget", none, none, none⟩ 9).name = v) ∧
      (∀ v, (⟨some "widget", none, none, none⟩ : UpdateDto).description = some v →
        (applyUpdate stockProduct ⟨some "widget", none, none, none⟩ 9).description =
          some v) ∧
      (∀ v, (⟨some "widget", none, none, none⟩ : UpdateDto).price = some v →
        (applyUpdate stockProduct ⟨some "widget", none, none, none⟩ 9).price = v) ∧
      (∀ v, (⟨some "widget", none, none, none⟩ : UpdateDto).stock = some v →
        (applyUpdate stockProduct ⟨some "widget", none, none, none⟩ 9).stock = v) ∧
      (∀ r ∈ [stockProduct], r.id ≠ 7 →
        r ∈ repoUpdate [stockProduct] 7 ⟨some "widget", none, none, none⟩ 9) :=
  update_frame [stockProduct] 7 ⟨some "widget", none, none, none⟩ 9 stockProduct
    (by decide)

/-- Cursor-list request whose `limit` query parameter is the string "0". -/
def limitZeroQuery : RawQuery := ⟨none, some "0", none⟩

/-- C9 counterexample: a list request with `limit = "0"` passes validation
(the schema rejects nothing) and reaches the service with the coerced
default limit 10 instead of being rejected. -/
theorem limit_zero_passes_validation :
    querySchemaParse limitZeroQuery = Except.ok limitZeroQuery ∧
      parsedLimitOf limitZeroQuery = 10 ∧
      getProductsCursorHandler demoStore limitZeroQuery =
        getProductsCursor demoStore 10 none :=
  ⟨rfl, rfl, rfl⟩

/-- C9 amended: validation accepts `limit = 0`; the controller
coercion `Number(limit) || 10` turns the falsy 0 into the default 10, so on
such requests both pagers run with limit 10, never 0. -/
theorem limit_zero_coerced_to_default (s : List Product) (q : RawQuery)
    (h : q.limit = some "0") :
    querySchemaParse q = Except.ok q ∧
      parsedLimitOf q = 10 ∧
      getProductsCursorHandler s q = getProductsCursor s 10 q.cursor ∧
      getProductsOffsetHandler s q =
        Except.ok (getProductsOffset s (parsedPageOf q).toNat 10) := by
  have hlim : parsedLimitOf q = 10 := by
    show jsOrDefault (jsNumber q.limit) 10 = 10
    rw [h]
    rfl
  refine ⟨rfl, hlim, ?_, ?_⟩
  · show getProductsCursor s (parsedLimitOf q).toNat q.cursor =
      getProductsCursor s 10 q.cursor
    rw [hlim]
    rfl
  · show Except.ok (getProductsOffset s (parsedPageOf q).toNat (parsedLimitOf q).toNat) =
      Except.ok (getProductsOffset s (parsedPageOf q).toNat 10)
    rw [hlim]
    rfl

/-- Closed witness for `limit_zero_coerced_to_default` at a query carrying
page "2", limit "0" and a cursor. -/
theorem limit_zero_coerced_to_default_witness :
    querySchemaParse ⟨some "2", some "0", some 1⟩ =
        Except.ok ⟨some "2", some "0", some 1⟩ ∧
      parsedLimitOf ⟨some "2", some "0", some 1⟩ = 10 ∧
      getProductsCursorHandler demoStore ⟨some "2", some "0", some 1⟩ =
        getProductsCursor demoStore 10 (some 1) ∧
      getProductsOffsetHandler demoStore ⟨some "2", some "0", some 1⟩ =
        Except.ok (getProductsOffset demoStore
          (parsedPageOf ⟨some "2", some "0", some 1⟩).toNat 10) :=
  limit_zero_coerced_to_default demoStore ⟨some "2", some "0", some 1⟩ rfl

end ProductApi
